import Mathlib

/-
Verification of the key-detection core of the autokey tool.

The authoritative detector is the class KeyDetector of
src/autokey_tool/key_detector_improved.py (the adaptive/quick-lock variant;
both entry points, main.py and controller_gui.py, import it).  The heavy
DSP steps (HPSS, tuning estimation, HPCP computation, correlation of the
blended chroma) call into librosa/numpy; their per-tick outcomes are
modelled as explicit tick inputs (structure TickEval below), while every
piece of control flow and state mutation written in the Python source is
embedded directly.

Numeric conventions of the embedding:
* Python floats are idealised as exact rationals.  Every float constant
  appearing in the source is exactly representable, and each truncation
  int(x) performed by the source was checked to give the same integer for
  the exact rational value and for the IEEE double value.
* rms = sqrt(mean(audio**2)) leaves the rationals.  A comparison
  np.sqrt(m) < t is embedded as sqrtLt m t, which holds iff 0 < t and
  m < t^2 - equivalent to the float comparison since sqrt is monotone and
  both sides are nonnegative.  The rms VALUE appended to the rolling
  rms history (only consumed by averaged comparisons inside
  update_adaptive_thresholds) is supplied as the tick input TickEval.rms.
* np.linalg.norm(profile) is irrational; the normalised profiles are
  embedded as profile / c with the six norms c collected in a structure
  Norms, and theorems quantify over every positive choice of the norms,
  which in particular covers the true ones.
-/

namespace AutoKey

/-- Major or minor mode of a key, the second word of the source's
key strings such as the string C Major. -/
inductive Mode
  | major
  | minor
deriving DecidableEq

/-- A musical key: a pitch class (0 = C, ..., 11 = B, indexing KEY_NAMES in
the source) together with a mode.  The source represents this pair as the
string KEY_NAMES[i] plus the mode word; distinct pairs give distinct
strings, so string equality is pair equality. -/
structure MKey where
  pc : Fin 12
  mode : Mode
deriving DecidableEq

/-- A chroma/HPCP vector as stored in the rolling buffers.  Its numeric
content is produced by librosa and never inspected by the locking logic,
so it is kept as an opaque list of rationals. -/
def Chroma : Type := List ℚ

instance : DecidableEq Chroma := by
  unfold Chroma
  infer_instance

/-- Python int() truncation toward zero.  Every call site in the embedded
code passes a nonnegative rational, where truncation is the floor. -/
def pyInt (q : ℚ) : ℕ := (⌊q⌋).toNat

/-- Embeds the comparison np.sqrt(x) < y for a nonnegative x without
leaving ℚ: since sqrt x is nonnegative and sqrt is monotone, the
comparison holds exactly when y is positive and x < y^2. -/
def sqrtLt (x y : ℚ) : Prop := 0 < y ∧ x < y ^ 2

instance (x y : ℚ) : Decidable (sqrtLt x y) := by
  unfold sqrtLt
  infer_instance

/-- Mean of the squares of a sample window: np.mean(audio**2), the square
of the window's RMS. -/
def meanSq (a : List ℚ) : ℚ := (a.map fun x => x * x).sum / a.length

/-- Mean of a list: np.mean(list(history)). -/
def listMean (xs : List ℚ) : ℚ := xs.sum / xs.length

/-- Python a[-n:], the trailing n samples of a window.  For n = 0 Python
slicing yields the whole list. -/
def pyTail (a : List ℚ) (n : ℕ) : List ℚ :=
  if n = 0 then a else a.drop (a.length - n)

/-- Appending to a collections.deque with maxlen n: the element is pushed
on the right and the oldest elements fall off the left so that at most n
remain. -/
def dequeAppend {α : Type} (n : ℕ) (xs : List α) (x : α) : List α :=
  (xs ++ [x]).drop (xs.length + 1 - n)

/-- The value int(sample_rate * 1.0), the minimum window length accepted
by detect_key. -/
def minSamples (sr : ℕ) : ℕ := pyInt ((sr : ℚ) * 1)

/-- The value int(sample_rate * 0.5), the length of the trailing segment
used for the tail silence check. -/
def chunkLen (sr : ℕ) : ℕ := pyInt ((sr : ℚ) * (1 / 2))

/-- The mutable state of key_detector_improved.KeyDetector: the
configuration set in __init__ together with every attribute mutated by
detect_key and reset.  The attribute _last_detected_key is created lazily
in Python and read through getattr with default None; an Option field
models it exactly. -/
structure KeyDetector where
  sample_rate : ℕ
  short_history : ℕ
  long_history : ℕ
  confidence_threshold : ℚ
  min_rms_threshold : ℚ
  use_hpss : Bool
  chroma_short : List Chroma
  chroma_long : List Chroma
  current_key : Option MKey
  current_confidence : ℚ
  lock_strength : ℚ
  same_key_count : ℕ
  frames_to_lock : ℕ
  frames_to_unlock : ℕ
  adaptive_lock_frames : ℕ
  adaptive_unlock_frames : ℕ
  high_confidence_count : ℕ
  quick_lock_threshold : ℕ
  avg_rms_history : List ℚ
  avg_confidence_history : List ℚ
  recent_detections : List (MKey × ℚ)
  last_detected_key : Option MKey
deriving DecidableEq

/-- KeyDetector.__init__, including the smoothing_history backward
compatibility branch. -/
def initDetector (sample_rate short_history long_history : ℕ)
    (smoothing_history : Option ℕ)
    (confidence_threshold min_rms_threshold : ℚ) (use_hpss : Bool) :
    KeyDetector :=
  { sample_rate := sample_rate
    short_history :=
      match smoothing_history with
      | some s => s
      | none => short_history
    long_history :=
      match smoothing_history with
      | some s => max (s * 2) 20
      | none => long_history
    confidence_threshold := confidence_threshold
    min_rms_threshold := min_rms_threshold
    use_hpss := use_hpss
    chroma_short := []
    chroma_long := []
    current_key := none
    current_confidence := 0
    lock_strength := 0
    same_key_count := 0
    frames_to_lock := 15
    frames_to_unlock := 25
    adaptive_lock_frames := 15
    adaptive_unlock_frames := 25
    high_confidence_count := 0
    quick_lock_threshold := 6
    avg_rms_history := []
    avg_confidence_history := []
    recent_detections := []
    last_detected_key := none }

namespace KeyDetector

/-- The relative major/minor map _build_relative_key_map as a function:
the relative of the major key at pitch class i is the minor key at
(i - 3) % 12, and conversely. -/
def relativeKey : MKey → MKey
  | ⟨p, Mode.major⟩ => ⟨p + 9, Mode.minor⟩
  | ⟨p, Mode.minor⟩ => ⟨p + 3, Mode.major⟩

/-- KeyDetector._is_related_key: relative_keys.get(key1) == key2.  The
None guard of the source is handled by the types (both arguments are
actual keys at every call site). -/
def is_related_key (key1 key2 : MKey) : Prop := relativeKey key1 = key2

instance (key1 key2 : MKey) : Decidable (is_related_key key1 key2) := by
  unfold is_related_key
  infer_instance

/-- KeyDetector.reset: clear every rolling history, drop the lock, and
restore the adaptive thresholds to their base values. -/
def reset (st : KeyDetector) : KeyDetector :=
  { st with
    chroma_short := []
    chroma_long := []
    current_key := none
    current_confidence := 0
    lock_strength := 0
    same_key_count := 0
    high_confidence_count := 0
    last_detected_key := none
    avg_rms_history := []
    avg_confidence_history := []
    recent_detections := []
    adaptive_lock_frames := st.frames_to_lock
    adaptive_unlock_frames := st.frames_to_unlock }

/-- KeyDetector._update_adaptive_thresholds.  The rms/confidence pair is
appended to the two maxlen-30 histories; with at least 10 entries the
lock/unlock frame thresholds are recomputed from the history means.  The
Python assigns base_lock, base_unlock and conf_multiplier in one
three-way branch on avg_rms; here the same branch appears once per
variable.  Each Python int() truncation was checked to agree between the
exact rationals used here and IEEE doubles. -/
def update_adaptive_thresholds (st0 : KeyDetector) (rms confidence : ℚ) :
    KeyDetector :=
  let st := { st0 with
    avg_rms_history := dequeAppend 30 st0.avg_rms_history rms
    avg_confidence_history :=
      dequeAppend 30 st0.avg_confidence_history confidence }
  if st.avg_rms_history.length < 10 then st
  else
    let avg_rms := listMean st.avg_rms_history
    let avg_conf := listMean st.avg_confidence_history
    let base_lock : ℚ :=
      if avg_rms < 1 / 100 then 10 else if avg_rms < 5 / 100 then 12 else 15
    let base_unlock : ℚ :=
      if avg_rms < 1 / 100 then 18 else if avg_rms < 5 / 100 then 20 else 25
    let conf_multiplier : ℚ :=
      if avg_rms < 1 / 100 then 8 / 10
      else if avg_rms < 5 / 100 then 9 / 10
      else 1
    let lock_frames : ℕ :=
      if avg_conf > 6 / 10 then max 6 (pyInt (base_lock * (6 / 10)))
      else if avg_conf > 4 / 10 then pyInt (base_lock * conf_multiplier)
      else pyInt (base_lock * (13 / 10))
    let unlock_frames : ℕ :=
      if avg_conf > 6 / 10 then max 15 (pyInt (base_unlock * (8 / 10)))
      else if avg_conf > 4 / 10 then pyInt (base_unlock * conf_multiplier)
      else pyInt (base_unlock * (12 / 10))
    { st with
      adaptive_lock_frames := max 6 (min 20 lock_frames)
      adaptive_unlock_frames := max 15 (min 30 unlock_frames) }

/-- KeyDetector._check_strong_consensus: at least 6 recent detections and
at least 80 percent of them agreeing on the detected key.  The source
counts occurrences in a dict; counting via filter is the same number. -/
def check_strong_consensus (st : KeyDetector) (detected : MKey) : Prop :=
  6 ≤ st.recent_detections.length ∧
  (8 / 10 : ℚ) ≤
    ((st.recent_detections.filter fun d => decide (d.1 = detected)).length : ℚ) /
      st.recent_detections.length

instance (st : KeyDetector) (detected : MKey) :
    Decidable (check_strong_consensus st detected) := by
  unfold check_strong_consensus
  infer_instance

/-- The two chroma buffer appends of detect_key (the deques carry maxlen
short_history and long_history respectively). -/
def afterBuffers (st : KeyDetector) (h : Chroma) : KeyDetector :=
  { st with
    chroma_short := dequeAppend st.short_history st.chroma_short h
    chroma_long := dequeAppend st.long_history st.chroma_long h }

/-- The RMS-adapted confidence threshold of detect_key: 60 percent of the
base threshold below RMS 0.01, 80 percent below RMS 0.05, the full base
threshold otherwise. -/
def effectiveThreshold (ct : ℚ) (audio : List ℚ) : ℚ :=
  if sqrtLt (meanSq audio) (1 / 100) then ct * (6 / 10)
  else if sqrtLt (meanSq audio) (5 / 100) then ct * (8 / 10)
  else ct

/-- The per-tick inputs of detect_key that the source obtains from
librosa/numpy: the window RMS value (see the header comment), whether the
HPSS/tuning/HPCP stage completes without raising, the HPCP vector it
returns, whether the correlation stage completes without raising, and the
key/score/confidence the correlation of the blended chroma yields. -/
structure TickEval where
  rms : ℚ
  extractOk : Bool
  hpcp : Chroma
  correlateOk : Bool
  key : MKey
  score : ℚ
  confidence : ℚ

/-- The locking state machine of detect_key, everything below the
confidence-threshold check: the recent-detection append, Case 1 (no
current key: counting, quick-lock, normal lock), Case 2 (same key:
strengthen and smooth) and Case 3 (different key: relative-key block,
counting, multiplicative decay, fast-switch and ordinary switch). -/
def lockUpdate (st0 : KeyDetector) (detected : MKey) (confidence : ℚ) :
    KeyDetector × (Option MKey × ℚ) :=
  let st := { st0 with
    recent_detections :=
      dequeAppend 10 st0.recent_detections (detected, confidence) }
  match st.current_key with
  | none =>
    let stA :=
      if st.last_detected_key = some detected then
        { st with
          same_key_count := st.same_key_count + 1
          high_confidence_count :=
            if confidence > 65 / 100 then st.high_confidence_count + 1 else 0 }
      else
        { st with
          same_key_count := 1
          high_confidence_count := if confidence > 65 / 100 then 1 else 0
          last_detected_key := some detected }
    if stA.high_confidence_count ≥ stA.quick_lock_threshold ∧
        check_strong_consensus stA detected then
      ({ stA with
          current_key := some detected
          current_confidence := confidence
          lock_strength := 7 / 10 }, (some detected, confidence))
    else if stA.same_key_count ≥ stA.adaptive_lock_frames then
      ({ stA with
          current_key := some detected
          current_confidence := confidence
          lock_strength := 1 / 2 }, (some detected, confidence))
    else (stA, (some detected, confidence))
  | some cur =>
    if detected = cur then
      let newconf := (8 / 10) * st.current_confidence + (2 / 10) * confidence
      ({ st with
          same_key_count := 0
          high_confidence_count := 0
          lock_strength := min 1 (st.lock_strength + 1 / 10)
          current_confidence := newconf }, (some cur, newconf))
    else
      let stB := { st with high_confidence_count := 0 }
      if is_related_key detected cur ∧ confidence < 7 / 10 then
        (stB, (some cur, stB.current_confidence))
      else
        let stC :=
          if stB.last_detected_key = some detected then
            { stB with same_key_count := stB.same_key_count + 1 }
          else
            { stB with same_key_count := 1, last_detected_key := some detected }
        let stD := { stC with lock_strength := stC.lock_strength * (95 / 100) }
        if confidence > 75 / 100 ∧ check_strong_consensus stD detected ∧
            stD.same_key_count ≥ 5 then
          ({ stD with
              current_key := some detected
              current_confidence := confidence
              lock_strength := 6 / 10
              same_key_count := 0 }, (some detected, confidence))
        else if stD.same_key_count ≥ stD.adaptive_unlock_frames then
          ({ stD with
              current_key := some detected
              current_confidence := confidence
              lock_strength := 1 / 2
              same_key_count := 0 }, (some detected, confidence))
        else (stD, (some cur, stD.current_confidence))

/-- KeyDetector.detect_key on one window.  Returns the new state (the
mutations the call performs on self) together with the returned triple,
with the (key-or-None, mode-or-None) pair collapsed into Option MKey
(the source returns both components of the pair or neither). -/
def detect_key (st : KeyDetector) (audio : List ℚ) (ev : TickEval) :
    KeyDetector × (Option MKey × ℚ) :=
  if audio.length < minSamples st.sample_rate then (st, (none, 0))
  else if audio.length > chunkLen st.sample_rate ∧
      sqrtLt (meanSq (pyTail audio (chunkLen st.sample_rate)))
        st.min_rms_threshold then
    (reset st, (none, 0))
  else if sqrtLt (meanSq audio) st.min_rms_threshold then (st, (none, 0))
  else if ev.extractOk = false then (st, (none, 0))
  else
    let st1 := afterBuffers st ev.hpcp
    if ev.correlateOk = false then (st1, (none, 0))
    else
      let st2 := update_adaptive_thresholds st1 ev.rms ev.confidence
      if ev.confidence < effectiveThreshold st.confidence_threshold audio then
        let st3 := { st2 with same_key_count := 0 }
        if st3.current_key.isSome ∧ st3.lock_strength > 3 / 10 then
          (st3, (st3.current_key, st3.current_confidence))
        else (st3, (none, ev.confidence))
      else lockUpdate st2 ev.key ev.confidence

/-- The gate conditions under which a call to detect_key reaches the
try-block body and completes it: the window is long enough, neither the
trailing segment nor the whole window is below the silence floor, and
both the extraction and the correlation stage succeed. -/
def TickRuns (st : KeyDetector) (audio : List ℚ) (ev : TickEval) : Prop :=
  ¬ audio.length < minSamples st.sample_rate ∧
  ¬ (audio.length > chunkLen st.sample_rate ∧
      sqrtLt (meanSq (pyTail audio (chunkLen st.sample_rate)))
        st.min_rms_threshold) ∧
  ¬ sqrtLt (meanSq audio) st.min_rms_threshold ∧
  ev.extractOk = true ∧ ev.correlateOk = true

instance (st : KeyDetector) (audio : List ℚ) (ev : TickEval) :
    Decidable (TickRuns st audio ev) := by
  unfold TickRuns
  infer_instance

end KeyDetector

/-! The correlation stage (KeyDetector._detect_key_with_profile and
KeyDetector._correlate_with_profiles), embedded on its own: inside
detect_key its input is the librosa-derived blended chroma, so there its
outcome is a tick input, but the stage itself is pure numpy code on
12-vectors and is embedded here for the confidence-bound property. -/

/-- The EDMA major profile constant of the source (exact rationals). -/
def EDMA_MAJOR : List ℚ :=
  [0.16519551, 0.04749026, 0.08293076, 0.06687112, 0.09994645,
   0.09274123, 0.05294487, 0.13159476, 0.05218986, 0.07443653,
   0.06940723, 0.06424152]

/-- The EDMA minor profile constant of the source. -/
def EDMA_MINOR : List ℚ :=
  [0.17235348, 0.05336489, 0.07703478, 0.10989745, 0.05091988,
   0.09632016, 0.04787113, 0.13418295, 0.09070186, 0.05765757,
   0.07276066, 0.06693519]

/-- The Shaath major profile constant of the source. -/
def SHAATH_MAJOR : List ℚ :=
  [6.6, 2.0, 3.5, 2.3, 4.6, 4.0, 2.5, 5.2, 2.4, 3.7, 2.3, 3.0]

/-- The Shaath minor profile constant of the source. -/
def SHAATH_MINOR : List ℚ :=
  [6.5, 2.8, 3.5, 5.4, 2.7, 3.5, 2.5, 5.2, 4.0, 2.7, 4.3, 3.2]

/-- The Temperley major profile constant of the source. -/
def TEMPERLEY_MAJOR : List ℚ :=
  [5.0, 2.0, 3.5, 2.0, 4.5, 4.0, 2.0, 4.5, 2.0, 3.5, 1.5, 4.0]

/-- The Temperley minor profile constant of the source. -/
def TEMPERLEY_MINOR : List ℚ :=
  [5.0, 2.0, 3.5, 4.5, 2.0, 4.0, 2.0, 4.5, 3.5, 2.0, 1.5, 4.0]

/-- The six values np.linalg.norm(profile) used to normalise the profiles
in __init__.  They are irrational, so they enter the embedding as
parameters; theorems quantify over every positive choice, which covers
the true norms. -/
structure Norms where
  edma_major_n : ℚ
  edma_minor_n : ℚ
  shaath_major_n : ℚ
  shaath_minor_n : ℚ
  temperley_major_n : ℚ
  temperley_minor_n : ℚ

/-- All six profile norms are positive (true of the real norms, since
every profile has a nonzero entry). -/
def Norms.Pos (ns : Norms) : Prop :=
  0 < ns.edma_major_n ∧ 0 < ns.edma_minor_n ∧ 0 < ns.shaath_major_n ∧
  0 < ns.shaath_minor_n ∧ 0 < ns.temperley_major_n ∧ 0 < ns.temperley_minor_n

/-- Profile normalisation profile / np.linalg.norm(profile), with the
norm value c passed in. -/
def normProf (v : List ℚ) (c : ℚ) : List ℚ := v.map fun x => x / c

namespace KeyDetector

/-- The dot product np.dot of two sample-aligned 12-vectors. -/
def dotL (u v : List ℚ) : ℚ := ((u.zip v).map fun p => p.1 * p.2).sum

/-- One iteration of the shift loop of _detect_key_with_profile: the
rotated chroma np.roll(hpcp, -shift) is hpcp rotated left by shift; the
major correlation is compared against the best first, then the minor
correlation against the updated best, each replacing it only on strict
improvement. -/
def profStep (hpcp major minor : List ℚ) (acc : Fin 12 × Mode × ℚ)
    (s : Fin 12) : Fin 12 × Mode × ℚ :=
  let rotated := hpcp.rotate s.val
  let acc1 :=
    if dotL rotated major > acc.2.2 then (s, Mode.major, dotL rotated major)
    else acc
  if dotL rotated minor > acc1.2.2 then (s, Mode.minor, dotL rotated minor)
  else acc1

/-- KeyDetector._detect_key_with_profile: best (shift, mode, correlation)
over the 12 rotations, starting from best_corr = -1.0, best_key = 0,
best_mode = Major. -/
def detect_key_with_profile (hpcp major minor : List ℚ) :
    Fin 12 × Mode × ℚ :=
  (List.finRange 12).foldl (profStep hpcp major minor) (0, Mode.major, -1)

/-- One results[key] = results.get(key, 0) + w update of the voting dict
of _correlate_with_profiles, as an insertion-ordered association list
(Python dicts iterate in insertion order). -/
def addVote (rs : List (MKey × ℚ)) (k : MKey) (w : ℚ) : List (MKey × ℚ) :=
  if rs.any fun p => decide (p.1 = k) then
    rs.map fun p => if p.1 = k then (p.1, p.2 + w) else p
  else rs ++ [(k, w)]

/-- Insertion step of a stable descending sort by score: the new item
goes after every strictly greater item and after earlier-inserted items
of equal score, which is what Python's stable sorted(..., reverse=True)
produces. -/
def insertDesc (x : MKey × ℚ) : List (MKey × ℚ) → List (MKey × ℚ)
  | [] => [x]
  | y :: ys => if y.2 > x.2 then y :: insertDesc x ys else x :: y :: ys

/-- Python sorted(results.items(), key=score, reverse=True): a stable
descending sort of the association list. -/
def sortDesc (l : List (MKey × ℚ)) : List (MKey × ℚ) := l.foldr insertDesc []

/-- The tail of KeyDetector._correlate_with_profiles: the combined vote
table is sorted descending (stably, as Python's sorted does), the top
two scores are read off (the runner-up score being 0 when only one key
received votes), and the confidence min(1, (best/0.85)*(1 +
separation*0.5)) is derived from the best score and its separation from
the runner-up. -/
def topConfidence (rs : List (MKey × ℚ)) : MKey × ℚ × ℚ :=
  match sortDesc rs with
  | [] => (⟨0, Mode.major⟩, 0, 0)
  | best :: rest =>
    let second_best_score : ℚ :=
      match rest with
      | [] => 0
      | s :: _ => s.2
    let separation := best.2 - second_best_score
    let confidence := min 1 ((best.2 / (85 / 100)) * (1 + separation * (1 / 2)))
    (best.1, best.2, confidence)

/-- KeyDetector._correlate_with_profiles: per-profile winners are
combined with weights 0.45/0.35/0.20 in the insertion-ordered vote
table, and the winning key and confidence are derived from the sorted
table by topConfidence. -/
def correlate_with_profiles (ns : Norms) (hpcp : List ℚ) : MKey × ℚ × ℚ :=
  let r1 := detect_key_with_profile hpcp
    (normProf EDMA_MAJOR ns.edma_major_n) (normProf EDMA_MINOR ns.edma_minor_n)
  let rs1 := addVote [] ⟨r1.1, r1.2.1⟩ ((45 / 100) * r1.2.2)
  let r2 := detect_key_with_profile hpcp
    (normProf SHAATH_MAJOR ns.shaath_major_n)
    (normProf SHAATH_MINOR ns.shaath_minor_n)
  let rs2 := addVote rs1 ⟨r2.1, r2.2.1⟩ ((35 / 100) * r2.2.2)
  let r3 := detect_key_with_profile hpcp
    (normProf TEMPERLEY_MAJOR ns.temperley_major_n)
    (normProf TEMPERLEY_MINOR ns.temperley_minor_n)
  let rs3 := addVote rs2 ⟨r3.1, r3.2.1⟩ ((20 / 100) * r3.2.2)
  topConfidence rs3

end KeyDetector

/-! Concrete fixtures used by the closed counterexample and witness
statements below. -/

/-- A detector with the default configuration at a (deliberately tiny)
sample rate of 4, holding a lock on A minor with medium strength. -/
def det4Locked : KeyDetector :=
  { initDetector 4 8 20 none (15 / 100) (1 / 1000) true with
    current_key := some ⟨9, Mode.minor⟩
    lock_strength := 1 / 2
    current_confidence := 4 / 5 }

/-- A default-configured detector at sample rate 2. -/
def smallDet : KeyDetector := initDetector 2 8 20 none (15 / 100) (1 / 1000) true

/-- smallDet locked on C major with medium strength. -/
def lockedC : KeyDetector :=
  { smallDet with
    current_key := some ⟨0, Mode.major⟩
    lock_strength := 1 / 2
    current_confidence := 4 / 5 }

/-- smallDet locked on A minor with medium strength. -/
def lockedAm : KeyDetector :=
  { smallDet with
    current_key := some ⟨9, Mode.minor⟩
    lock_strength := 1 / 2
    current_confidence := 4 / 5 }

/-- smallDet locked on A minor whose lock strength has decayed to 1/4
(below the 0.3 residual-hold bar). -/
def weakAm : KeyDetector :=
  { smallDet with
    current_key := some ⟨9, Mode.minor⟩
    lock_strength := 1 / 4
    current_confidence := 4 / 5 }

/-- A two-sample window of amplitude 0.1: loud enough to clear every
silence gate at sample rate 2, with an exactly rational RMS of 0.1. -/
def loudAudio : List ℚ := [1 / 10, 1 / 10]

/-- A tick whose extraction and correlation succeed, detecting G major at
confidence 0.01 (below every effective threshold used here). -/
def evLow : KeyDetector.TickEval :=
  { rms := 1 / 10
    extractOk := true
    hpcp := ([] : List ℚ)
    correlateOk := true
    key := ⟨7, Mode.major⟩
    score := 0
    confidence := 1 / 100 }

/-- A tick detecting C major at confidence 0.5. -/
def evCmaj05 : KeyDetector.TickEval := { evLow with key := ⟨0, Mode.major⟩, confidence := 1 / 2 }

/-- A tick detecting C major at confidence 0.01. -/
def evCmajLow : KeyDetector.TickEval := { evLow with key := ⟨0, Mode.major⟩ }

/-- A tick detecting D major at confidence 0.5. -/
def evDmaj05 : KeyDetector.TickEval := { evLow with key := ⟨2, Mode.major⟩, confidence := 1 / 2 }

/-- A tick whose extraction stage raises. -/
def evExtractFail : KeyDetector.TickEval := { evLow with extractOk := false }

/-- A tick whose correlation stage raises. -/
def evCorrFail : KeyDetector.TickEval := { evLow with correlateOk := false }

/-- The all-ones choice of profile norms (positive, hence a valid
instantiation of the quantified norms). -/
def onesNorms : Norms := ⟨1, 1, 1, 1, 1, 1⟩

/-- A unit chroma vector concentrated on pitch class C. -/
def unitChroma : List ℚ := [1, 0, 0, 0, 0, 0, 0, 0, 0, 0, 0, 0]

namespace KeyDetector

/-- The state of a successful tick just before the confidence-threshold
check: both chroma buffers appended and the adaptive thresholds
updated. -/
def midState (st : KeyDetector) (ev : TickEval) : KeyDetector :=
  update_adaptive_thresholds (afterBuffers st ev.hpcp) ev.rms ev.confidence

end KeyDetector

/-! Helper lemmas. -/

namespace KeyDetector

theorem update_adaptive_pres (st : KeyDetector) (r c : ℚ) :
    (update_adaptive_thresholds st r c).current_key = st.current_key ∧
    (update_adaptive_thresholds st r c).current_confidence = st.current_confidence ∧
    (update_adaptive_thresholds st r c).lock_strength = st.lock_strength ∧
    (update_adaptive_thresholds st r c).same_key_count = st.same_key_count ∧
    (update_adaptive_thresholds st r c).high_confidence_count = st.high_confidence_count ∧
    (update_adaptive_thresholds st r c).last_detected_key = st.last_detected_key ∧
    (update_adaptive_thresholds st r c).quick_lock_threshold = st.quick_lock_threshold ∧
    (update_adaptive_thresholds st r c).sample_rate = st.sample_rate ∧
    (update_adaptive_thresholds st r c).min_rms_threshold = st.min_rms_threshold ∧
    (update_adaptive_thresholds st r c).confidence_threshold = st.confidence_threshold ∧
    (update_adaptive_thresholds st r c).frames_to_lock = st.frames_to_lock ∧
    (update_adaptive_thresholds st r c).frames_to_unlock = st.frames_to_unlock ∧
    (update_adaptive_thresholds st r c).chroma_short = st.chroma_short ∧
    (update_adaptive_thresholds st r c).chroma_long = st.chroma_long := by
  unfold update_adaptive_thresholds
  dsimp only
  split <;> simp

theorem midState_pres (st : KeyDetector) (ev : TickEval) :
    (midState st ev).current_key = st.current_key ∧
    (midState st ev).current_confidence = st.current_confidence ∧
    (midState st ev).lock_strength = st.lock_strength ∧
    (midState st ev).same_key_count = st.same_key_count ∧
    (midState st ev).high_confidence_count = st.high_confidence_count ∧
    (midState st ev).last_detected_key = st.last_detected_key ∧
    (midState st ev).quick_lock_threshold = st.quick_lock_threshold ∧
    (midState st ev).sample_rate = st.sample_rate ∧
    (midState st ev).min_rms_threshold = st.min_rms_threshold ∧
    (midState st ev).confidence_threshold = st.confidence_threshold ∧
    (midState st ev).frames_to_lock = st.frames_to_lock ∧
    (midState st ev).frames_to_unlock = st.frames_to_unlock := by
  have h := update_adaptive_pres (afterBuffers st ev.hpcp) ev.rms ev.confidence
  unfold midState
  exact ⟨h.1, h.2.1, h.2.2.1, h.2.2.2.1, h.2.2.2.2.1, h.2.2.2.2.2.1,
    h.2.2.2.2.2.2.1, h.2.2.2.2.2.2.2.1, h.2.2.2.2.2.2.2.2.1,
    h.2.2.2.2.2.2.2.2.2.1, h.2.2.2.2.2.2.2.2.2.2.1, h.2.2.2.2.2.2.2.2.2.2.2.1⟩

theorem detect_key_of_runs (st : KeyDetector) (audio : List ℚ) (ev : TickEval)
    (h : TickRuns st audio ev) :
    detect_key st audio ev =
      (if ev.confidence < effectiveThreshold st.confidence_threshold audio then
        if ({ midState st ev with same_key_count := 0 }).current_key.isSome ∧
            ({ midState st ev with same_key_count := 0 }).lock_strength > 3 / 10 then
          ({ midState st ev with same_key_count := 0 },
            (({ midState st ev with same_key_count := 0 }).current_key,
              ({ midState st ev with same_key_count := 0 }).current_confidence))
        else ({ midState st ev with same_key_count := 0 }, (none, ev.confidence))
      else lockUpdate (midState st ev) ev.key ev.confidence) := by
  obtain ⟨h1, h2, h3, h4, h5⟩ := h
  unfold detect_key midState
  rw [if_neg h1, if_neg h2, if_neg h3, if_neg (by rw [h4]; exact fun h => nomatch h),
    if_neg (by rw [h5]; exact fun h => nomatch h)]

end KeyDetector

/-! Claim theorems. -/

namespace KeyDetector

/-- Claim C6 (confirmed): a window shorter than one second of audio at
the current sample rate makes detect_key return (None, None, 0.0) and
leave the entire detector state, lock fields and chroma histories alike,
exactly unchanged. -/
theorem insufficient_data_no_mutation (st : KeyDetector) (audio : List ℚ)
    (ev : TickEval) (h : audio.length < minSamples st.sample_rate) :
    detect_key st audio ev = (st, (none, 0)) := by
  unfold detect_key
  rw [if_pos h]

/-- The relative key always differs from the key itself (the mode
flips). -/
theorem relativeKey_ne (k : MKey) : relativeKey k ≠ k := by
  obtain ⟨p, m⟩ := k
  cases m <;> simp [relativeKey]

/-- Witness for insufficient_data_no_mutation: a 0-sample window at the
default sample rate. -/
theorem insufficient_data_no_mutation_witness :
    ([] : List ℚ).length <
      minSamples (initDetector 44100 8 20 none (15 / 100) (1 / 1000) true).sample_rate ∧
    detect_key (initDetector 44100 8 20 none (15 / 100) (1 / 1000) true) [] evLow =
      (initDetector 44100 8 20 none (15 / 100) (1 / 1000) true, (none, 0)) :=
  ⟨by norm_num [minSamples, pyInt, initDetector, Int.toNat],
    insufficient_data_no_mutation _ [] evLow
      (by norm_num [minSamples, pyInt, initDetector, Int.toNat])⟩

/-- Claim C1 (corrected, amended form): for a window at least one second
long, a trailing-segment RMS below the silence floor triggers the full
reset together with the no-key result, while a window whose overall RMS
is below the floor (the trailing check not having fired) gets the no-key
result with the state left entirely unchanged. -/
theorem silence_tail_reset (st : KeyDetector) (audio : List ℚ) (ev : TickEval)
    (hlen : ¬ audio.length < minSamples st.sample_rate) :
    (audio.length > chunkLen st.sample_rate →
      sqrtLt (meanSq (pyTail audio (chunkLen st.sample_rate))) st.min_rms_threshold →
      detect_key st audio ev = (reset st, (none, 0))) ∧
    (¬ (audio.length > chunkLen st.sample_rate ∧
        sqrtLt (meanSq (pyTail audio (chunkLen st.sample_rate))) st.min_rms_threshold) →
      sqrtLt (meanSq audio) st.min_rms_threshold →
      detect_key st audio ev = (st, (none, 0))) := by
  constructor
  · intro h1 h2
    unfold detect_key
    rw [if_neg hlen, if_pos ⟨h1, h2⟩]
  · intro h1 h2
    unfold detect_key
    rw [if_neg hlen, if_neg h1, if_pos h2]

/-- Witness for silence_tail_reset: an all-zero one-second window at
sample rate 4 fully resets the locked detector det4Locked. -/
theorem silence_tail_reset_witness :
    ¬ ([0, 0, 0, 0] : List ℚ).length < minSamples det4Locked.sample_rate ∧
    detect_key det4Locked [0, 0, 0, 0] evLow = (reset det4Locked, (none, 0)) := by
  have hlen : ¬ ([0, 0, 0, 0] : List ℚ).length < minSamples det4Locked.sample_rate := by
    norm_num [minSamples, pyInt, det4Locked, initDetector, Int.toNat]
  refine ⟨hlen, (silence_tail_reset det4Locked [0, 0, 0, 0] evLow hlen).1 ?_ ?_⟩
  · norm_num [chunkLen, pyInt, det4Locked, initDetector, Int.toNat]
  · norm_num [chunkLen, pyInt, pyTail, meanSq, sqrtLt, det4Locked, initDetector, Int.toNat]

/-- Counterexample to claim C1 as stated: the window
[0, 0, 0, 3/2000] at sample rate 4 has overall RMS 3/4000 < 0.001
(below the silence floor) but trailing-half RMS 3/(2000*sqrt 2) ≥ 0.001,
so detect_key returns the no-key result WITHOUT resetting the lock
state: the locked key A minor survives. -/
theorem silence_overall_no_reset_cex :
    sqrtLt (meanSq [0, 0, 0, 3 / 2000]) det4Locked.min_rms_threshold ∧
    det4Locked.current_key = some ⟨9, Mode.minor⟩ ∧
    (detect_key det4Locked [0, 0, 0, 3 / 2000] evLow).1.current_key =
      some ⟨9, Mode.minor⟩ ∧
    (detect_key det4Locked [0, 0, 0, 3 / 2000] evLow).1.lock_strength = 1 / 2 ∧
    (detect_key det4Locked [0, 0, 0, 3 / 2000] evLow).2 = (none, 0) := by
  norm_num [detect_key, det4Locked, initDetector, evLow, minSamples, chunkLen, pyInt,
    meanSq, pyTail, sqrtLt, reset, Int.toNat]

/-- Claim C9 (confirmed): after reset, any window whose overall RMS is
below the silence floor (of any length, including windows too short to
analyse) yields (None, None, 0.0) and leaves lock_strength at exactly
0. -/
theorem reset_silent_no_key (st : KeyDetector) (audio : List ℚ) (ev : TickEval)
    (_hsr : 0 < st.sample_rate)
    (hsil : sqrtLt (meanSq audio) st.min_rms_threshold) :
    (detect_key (reset st) audio ev).2 = (none, 0) ∧
    (detect_key (reset st) audio ev).1.lock_strength = 0 := by
  unfold detect_key
  by_cases h1 : audio.length < minSamples (reset st).sample_rate
  · rw [if_pos h1]
    exact ⟨rfl, rfl⟩
  · rw [if_neg h1]
    by_cases h2 : audio.length > chunkLen (reset st).sample_rate ∧
        sqrtLt (meanSq (pyTail audio (chunkLen (reset st).sample_rate)))
          (reset st).min_rms_threshold
    · rw [if_pos h2]
      exact ⟨rfl, rfl⟩
    · have hsil2 : sqrtLt (meanSq audio) (reset st).min_rms_threshold := hsil
      rw [if_neg h2, if_pos hsil2]
      exact ⟨rfl, rfl⟩

/-- Witness for reset_silent_no_key: a silent two-sample window on the
reset default small detector. -/
theorem reset_silent_no_key_witness :
    0 < lockedAm.sample_rate ∧
    sqrtLt (meanSq [0, 0]) lockedAm.min_rms_threshold ∧
    (detect_key (reset lockedAm) [0, 0] evLow).2 = (none, 0) ∧
    (detect_key (reset lockedAm) [0, 0] evLow).1.lock_strength = 0 := by
  have h1 : 0 < lockedAm.sample_rate := by
    norm_num [lockedAm, smallDet, initDetector]
  have h2 : sqrtLt (meanSq [0, 0]) lockedAm.min_rms_threshold := by
    norm_num [meanSq, sqrtLt, lockedAm, smallDet, initDetector]
  have h := reset_silent_no_key lockedAm [0, 0] evLow h1 h2
  exact ⟨h1, h2, h.1, h.2⟩

/-- Claim C4 (confirmed): a failure raised in the extraction stage or in
the correlation stage of a tick is absorbed; the tick returns
(None, None, 0.0) and every LockState field (current key, smoothed
confidence, lock strength, both counters, the last-detected key, the
adaptive thresholds and the rolling detection/RMS/confidence histories)
is exactly as before the tick, so a prior lock survives the bad tick. -/
theorem tick_failure_preserves_lock (st : KeyDetector) (audio : List ℚ)
    (ev : TickEval)
    (hlen : ¬ audio.length < minSamples st.sample_rate)
    (htail : ¬ (audio.length > chunkLen st.sample_rate ∧
      sqrtLt (meanSq (pyTail audio (chunkLen st.sample_rate))) st.min_rms_threshold))
    (hsil : ¬ sqrtLt (meanSq audio) st.min_rms_threshold)
    (hfail : ev.extractOk = false ∨ ev.correlateOk = false) :
    (detect_key st audio ev).2 = (none, 0) ∧
    (detect_key st audio ev).1.current_key = st.current_key ∧
    (detect_key st audio ev).1.current_confidence = st.current_confidence ∧
    (detect_key st audio ev).1.lock_strength = st.lock_strength ∧
    (detect_key st audio ev).1.same_key_count = st.same_key_count ∧
    (detect_key st audio ev).1.high_confidence_count = st.high_confidence_count ∧
    (detect_key st audio ev).1.last_detected_key = st.last_detected_key ∧
    (detect_key st audio ev).1.adaptive_lock_frames = st.adaptive_lock_frames ∧
    (detect_key st audio ev).1.adaptive_unlock_frames = st.adaptive_unlock_frames ∧
    (detect_key st audio ev).1.avg_rms_history = st.avg_rms_history ∧
    (detect_key st audio ev).1.avg_confidence_history = st.avg_confidence_history ∧
    (detect_key st audio ev).1.recent_detections = st.recent_detections := by
  unfold detect_key
  rw [if_neg hlen, if_neg htail, if_neg hsil]
  by_cases hx : ev.extractOk = false
  · rw [if_pos hx]
    exact ⟨rfl, rfl, rfl, rfl, rfl, rfl, rfl, rfl, rfl, rfl, rfl, rfl⟩
  · have hc : ev.correlateOk = false := hfail.resolve_left hx
    rw [if_neg hx, if_pos hc]
    exact ⟨rfl, rfl, rfl, rfl, rfl, rfl, rfl, rfl, rfl, rfl, rfl, rfl⟩

/-- Witness for tick_failure_preserves_lock: a correlation-stage failure
on the locked detector lockedAm with a loud window; the lock and every
LockState field survive. -/
theorem tick_failure_preserves_lock_witness :
    ¬ sqrtLt (meanSq loudAudio) lockedAm.min_rms_threshold ∧
    evCorrFail.correlateOk = false ∧
    (detect_key lockedAm loudAudio evCorrFail).2 = (none, 0) ∧
    (detect_key lockedAm loudAudio evCorrFail).1.current_key = lockedAm.current_key ∧
    (detect_key lockedAm loudAudio evCorrFail).1.lock_strength = lockedAm.lock_strength := by
  have h := tick_failure_preserves_lock lockedAm loudAudio evCorrFail
    (by norm_num [minSamples, pyInt, lockedAm, smallDet, initDetector, loudAudio, Int.toNat])
    (by norm_num [chunkLen, pyInt, pyTail, meanSq, sqrtLt, lockedAm, smallDet,
      initDetector, loudAudio, Int.toNat])
    (by norm_num [meanSq, sqrtLt, lockedAm, smallDet, initDetector, loudAudio])
    (Or.inr (by norm_num [evCorrFail, evLow]))
  refine ⟨by norm_num [meanSq, sqrtLt, lockedAm, smallDet, initDetector, loudAudio],
    by norm_num [evCorrFail, evLow], h.1, h.2.1, h.2.2.2.1⟩

/-- Computation of lockUpdate in Case 2 (the detected key equals the
current key): the switch counters clear, the lock strengthens by 0.1
capped at 1, and the smoothed confidence is reported. -/
theorem lockUpdate_same (st : KeyDetector) (cur : MKey) (conf : ℚ)
    (h : st.current_key = some cur) :
    lockUpdate st cur conf =
      ({ st with
          recent_detections := dequeAppend 10 st.recent_detections (cur, conf)
          same_key_count := 0
          high_confidence_count := 0
          lock_strength := min 1 (st.lock_strength + 1 / 10)
          current_confidence := (8 / 10) * st.current_confidence + (2 / 10) * conf },
        (some cur, (8 / 10) * st.current_confidence + (2 / 10) * conf)) := by
  unfold lockUpdate
  dsimp only
  rw [h]
  dsimp only
  rw [if_pos rfl]

/-- Computation of lockUpdate when the relative-key block of Case 3
fires: only the recent-detections history and the quick-lock counter are
touched; in particular the lock strength is NOT decayed. -/
theorem lockUpdate_blocked (st : KeyDetector) (det : MKey) (conf : ℚ) (cur : MKey)
    (h : st.current_key = some cur) (hne : det ≠ cur)
    (hrel : is_related_key det cur) (hconf : conf < 7 / 10) :
    lockUpdate st det conf =
      ({ st with
          recent_detections := dequeAppend 10 st.recent_detections (det, conf)
          high_confidence_count := 0 },
        (some cur, st.current_confidence)) := by
  unfold lockUpdate
  dsimp only
  rw [h]
  dsimp only
  rw [if_neg hne, if_pos ⟨hrel, hconf⟩]

/-- Claim C2 (corrected, amended form): on a tick whose confidence falls
below the effective RMS-adapted threshold, lock_strength is left
unchanged (there is no decay), the consecutive-key counter is reset, and
the tick reports the locked key with the stored smoothed confidence when
a key is locked with lock strength above 0.3, otherwise no key with the
raw confidence. -/
theorem low_confidence_hold (st : KeyDetector) (audio : List ℚ) (ev : TickEval)
    (hrun : TickRuns st audio ev)
    (hlow : ev.confidence < effectiveThreshold st.confidence_threshold audio) :
    (detect_key st audio ev).1.lock_strength = st.lock_strength ∧
    (detect_key st audio ev).1.same_key_count = 0 ∧
    (detect_key st audio ev).1.current_key = st.current_key ∧
    (detect_key st audio ev).2 =
      (if st.current_key.isSome ∧ st.lock_strength > 3 / 10 then
        (st.current_key, st.current_confidence)
      else (none, ev.confidence)) := by
  obtain ⟨hck, hcc, hls, -, -, -, -, -, -, -, -, -⟩ := midState_pres st ev
  rw [detect_key_of_runs st audio ev hrun, if_pos hlow]
  dsimp only
  simp only [hck, hcc, hls]
  by_cases hcond : st.current_key.isSome = true ∧ st.lock_strength > 3 / 10
  · rw [if_pos hcond, if_pos hcond]
    exact ⟨rfl, rfl, rfl, rfl⟩
  · rw [if_neg hcond, if_neg hcond]
    exact ⟨rfl, rfl, rfl, rfl⟩

set_option maxHeartbeats 1600000 in
/-- Counterexample to claim C2 as stated: a tick with confidence 0.01
(below the effective threshold 0.15) on a detector locked on C major
with lock strength exactly 1/2 leaves lock_strength at exactly 1/2:
nothing is decayed multiplicatively (the locked key is still
reported). -/
theorem low_confidence_no_decay_cex :
    evLow.confidence < effectiveThreshold lockedC.confidence_threshold loudAudio ∧
    lockedC.lock_strength = 1 / 2 ∧
    (detect_key lockedC loudAudio evLow).1.lock_strength = 1 / 2 ∧
    (detect_key lockedC loudAudio evLow).2 = (some ⟨0, Mode.major⟩, 4 / 5) := by
  norm_num [detect_key, lockedC, smallDet, initDetector, evLow, loudAudio, minSamples,
    chunkLen, pyInt, meanSq, pyTail, sqrtLt, effectiveThreshold,
    update_adaptive_thresholds, afterBuffers, dequeAppend, Int.toNat]

/-- Witness for low_confidence_hold: the same low-confidence tick on
lockedC, whose lock strength 1/2 exceeds the 0.3 residual bar, keeps
reporting C major. -/
theorem low_confidence_hold_witness :
    TickRuns lockedC loudAudio evLow ∧
    evLow.confidence < effectiveThreshold lockedC.confidence_threshold loudAudio ∧
    ((detect_key lockedC loudAudio evLow).1.lock_strength = lockedC.lock_strength ∧
      (detect_key lockedC loudAudio evLow).1.same_key_count = 0 ∧
      (detect_key lockedC loudAudio evLow).1.current_key = lockedC.current_key ∧
      (detect_key lockedC loudAudio evLow).2 =
        (if lockedC.current_key.isSome ∧ lockedC.lock_strength > 3 / 10 then
          (lockedC.current_key, lockedC.current_confidence)
        else (none, evLow.confidence))) := by
  have h1 : TickRuns lockedC loudAudio evLow := by
    refine ⟨?_, ?_, ?_, ?_, ?_⟩ <;>
      norm_num [minSamples, chunkLen, pyInt, pyTail, meanSq, sqrtLt, lockedC, smallDet,
        initDetector, loudAudio, evLow, Int.toNat]
  have h2 : evLow.confidence < effectiveThreshold lockedC.confidence_threshold loudAudio := by
    norm_num [effectiveThreshold, meanSq, sqrtLt, lockedC, smallDet, initDetector,
      loudAudio, evLow]
  exact ⟨h1, h2, low_confidence_hold lockedC loudAudio evLow h1 h2⟩

/-- Claim C3 (corrected, amended form): while locked, a tick detecting a
different key above the effective threshold decays lock_strength by the
factor 0.95 as long as the lock persists - except when the relative-key
block fires (relative key below the 0.70 bar), in which case
lock_strength is left unchanged. -/
theorem different_key_decay (st : KeyDetector) (audio : List ℚ) (ev : TickEval)
    (cur : MKey) (hrun : TickRuns st audio ev)
    (hcur : st.current_key = some cur) (hne : ev.key ≠ cur)
    (hthr : effectiveThreshold st.confidence_threshold audio ≤ ev.confidence)
    (hpersist : (detect_key st audio ev).1.current_key = some cur) :
    (detect_key st audio ev).1.lock_strength =
      (if is_related_key ev.key cur ∧ ev.confidence < 7 / 10 then st.lock_strength
      else st.lock_strength * (95 / 100)) := by
  obtain ⟨hck, hcc, hls, -, -, -, -, -, -, -, -, -⟩ := midState_pres st ev
  rw [detect_key_of_runs st audio ev hrun, if_neg (not_lt.mpr hthr)] at hpersist ⊢
  by_cases hb : is_related_key ev.key cur ∧ ev.confidence < 7 / 10
  · rw [if_pos hb]
    rw [lockUpdate_blocked (midState st ev) ev.key ev.confidence cur (hck.trans hcur)
      hne hb.1 hb.2]
    exact hls
  · rw [if_neg hb]
    unfold lockUpdate at hpersist ⊢
    dsimp only at hpersist ⊢
    rw [hck, hcur] at hpersist ⊢
    dsimp only at hpersist ⊢
    rw [if_neg hne] at hpersist ⊢
    rw [if_neg hb] at hpersist ⊢
    by_cases hl : (midState st ev).last_detected_key = some ev.key
    · rw [if_pos hl] at hpersist ⊢
      split_ifs at hpersist ⊢ with hfast hswitch
      · exact absurd (Option.some.inj hpersist) hne
      · exact absurd (Option.some.inj hpersist) hne
      · exact hls ▸ rfl
    · rw [if_neg hl] at hpersist ⊢
      split_ifs at hpersist ⊢ with hfast hswitch
      · exact absurd (Option.some.inj hpersist) hne
      · exact absurd (Option.some.inj hpersist) hne
      · exact hls ▸ rfl

set_option maxHeartbeats 1600000 in
/-- Counterexample to claim C3 as stated: locked on A minor with lock
strength 1/2, a tick detecting its relative key C major at confidence
0.5 (above the effective threshold, below the 0.70 override bar) is
blocked - and lock_strength stays exactly 1/2 instead of being decayed
to 0.475. -/
theorem relative_block_no_decay_cex :
    is_related_key evCmaj05.key ⟨9, Mode.minor⟩ ∧
    effectiveThreshold lockedAm.confidence_threshold loudAudio ≤ evCmaj05.confidence ∧
    evCmaj05.confidence < 7 / 10 ∧
    lockedAm.lock_strength = 1 / 2 ∧
    (detect_key lockedAm loudAudio evCmaj05).1.current_key = some ⟨9, Mode.minor⟩ ∧
    (detect_key lockedAm loudAudio evCmaj05).1.lock_strength = 1 / 2 := by
  refine ⟨?_, ?_, ?_, ?_, ?_⟩ <;>
    norm_num +decide [detect_key, lockUpdate, is_related_key, relativeKey, lockedAm, smallDet,
      initDetector, evCmaj05, evLow, loudAudio, minSamples, chunkLen, pyInt, meanSq,
      pyTail, sqrtLt, effectiveThreshold, update_adaptive_thresholds, afterBuffers,
      dequeAppend, check_strong_consensus, Int.toNat]

set_option maxHeartbeats 1600000 in
/-- Witness for different_key_decay: locked on C major, a tick detecting
the unrelated D major at confidence 0.5 decays the lock strength from
1/2 to 19/40 while the lock persists. -/
theorem different_key_decay_witness :
    TickRuns lockedC loudAudio evDmaj05 ∧
    ¬ is_related_key evDmaj05.key ⟨0, Mode.major⟩ ∧
    (detect_key lockedC loudAudio evDmaj05).1.lock_strength =
      (if is_related_key evDmaj05.key ⟨0, Mode.major⟩ ∧ evDmaj05.confidence < 7 / 10 then
        lockedC.lock_strength
      else lockedC.lock_strength * (95 / 100)) := by
  have h1 : TickRuns lockedC loudAudio evDmaj05 := by
    refine ⟨?_, ?_, ?_, ?_, ?_⟩ <;>
      norm_num [minSamples, chunkLen, pyInt, pyTail, meanSq, sqrtLt, lockedC, smallDet,
        initDetector, loudAudio, evDmaj05, evLow, Int.toNat]
  have h2 : effectiveThreshold lockedC.confidence_threshold loudAudio ≤
      evDmaj05.confidence := by
    norm_num [effectiveThreshold, meanSq, sqrtLt, lockedC, smallDet, initDetector,
      loudAudio, evDmaj05, evLow]
  have h3 : (detect_key lockedC loudAudio evDmaj05).1.current_key =
      some ⟨0, Mode.major⟩ := by
    norm_num +decide [detect_key, lockUpdate, is_related_key, relativeKey, lockedC, smallDet,
      initDetector, evDmaj05, evLow, loudAudio, minSamples, chunkLen, pyInt, meanSq,
      pyTail, sqrtLt, effectiveThreshold, update_adaptive_thresholds, afterBuffers,
      dequeAppend, check_strong_consensus, Int.toNat]
  refine ⟨h1, by decide, ?_⟩
  exact different_key_decay lockedC loudAudio evDmaj05 ⟨0, Mode.major⟩ h1 rfl
    (by decide) h2 h3

/-- Claim C8 (confirmed): once locked, a tick re-detecting the locked key
above the effective threshold never decreases lock_strength (given the
invariant that it is at most 1), and the updated value stays capped at
1. -/
theorem same_key_lock_monotone (st : KeyDetector) (audio : List ℚ) (ev : TickEval)
    (cur : MKey) (hrun : TickRuns st audio ev)
    (hcur : st.current_key = some cur) (hkey : ev.key = cur)
    (hthr : effectiveThreshold st.confidence_threshold audio ≤ ev.confidence)
    (hone : st.lock_strength ≤ 1) :
    st.lock_strength ≤ (detect_key st audio ev).1.lock_strength ∧
    (detect_key st audio ev).1.lock_strength ≤ 1 := by
  obtain ⟨hck, -, hls, -⟩ := midState_pres st ev
  rw [detect_key_of_runs st audio ev hrun, if_neg (not_lt.mpr hthr), hkey,
    lockUpdate_same (midState st ev) cur ev.confidence (hck.trans hcur)]
  dsimp only
  rw [hls]
  constructor
  · exact le_min hone (by linarith)
  · exact min_le_left 1 _

/-- Witness for same_key_lock_monotone: re-detecting the locked C major
at confidence 0.5 moves the lock strength from 1/2 to 3/5, within
[1/2, 1]. -/
theorem same_key_lock_monotone_witness :
    TickRuns lockedC loudAudio evCmaj05 ∧
    lockedC.lock_strength ≤ 1 ∧
    lockedC.lock_strength ≤ (detect_key lockedC loudAudio evCmaj05).1.lock_strength ∧
    (detect_key lockedC loudAudio evCmaj05).1.lock_strength ≤ 1 := by
  have h1 : TickRuns lockedC loudAudio evCmaj05 := by
    refine ⟨?_, ?_, ?_, ?_, ?_⟩ <;>
      norm_num [minSamples, chunkLen, pyInt, pyTail, meanSq, sqrtLt, lockedC, smallDet,
        initDetector, loudAudio, evCmaj05, evLow, Int.toNat]
  have h2 : effectiveThreshold lockedC.confidence_threshold loudAudio ≤
      evCmaj05.confidence := by
    norm_num [effectiveThreshold, meanSq, sqrtLt, lockedC, smallDet, initDetector,
      loudAudio, evCmaj05, evLow]
  have h4 : lockedC.lock_strength ≤ 1 := by
    norm_num [lockedC, smallDet, initDetector]
  have h := same_key_lock_monotone lockedC loudAudio evCmaj05 ⟨0, Mode.major⟩ h1 rfl
    (by norm_num [evCmaj05, evLow]) h2 h4
  exact ⟨h1, h4, h.1, h.2⟩

/-- A single blocked relative-key tick: the locked key is reported with
the stored confidence, the lock and the configuration fields survive
unchanged. -/
theorem blocked_tick (st : KeyDetector) (audio : List ℚ) (ev : TickEval)
    (cur : MKey) (hrun : TickRuns st audio ev)
    (hcur : st.current_key = some cur) (hrel : is_related_key ev.key cur)
    (hconf : ev.confidence < 7 / 10)
    (hthr : effectiveThreshold st.confidence_threshold audio ≤ ev.confidence) :
    (detect_key st audio ev).2 = (some cur, st.current_confidence) ∧
    (detect_key st audio ev).1.current_key = some cur ∧
    (detect_key st audio ev).1.current_confidence = st.current_confidence ∧
    (detect_key st audio ev).1.sample_rate = st.sample_rate ∧
    (detect_key st audio ev).1.min_rms_threshold = st.min_rms_threshold ∧
    (detect_key st audio ev).1.confidence_threshold = st.confidence_threshold := by
  have hne : ev.key ≠ cur := by
    intro h
    exact relativeKey_ne cur (h ▸ hrel)
  obtain ⟨hck, hcc, -, -, -, -, -, hsr, hmr, hct, -, -⟩ := midState_pres st ev
  rw [detect_key_of_runs st audio ev hrun, if_neg (not_lt.mpr hthr),
    lockUpdate_blocked (midState st ev) ev.key ev.confidence cur (hck.trans hcur)
      hne hrel hconf]
  exact ⟨by rw [hcc], hck.trans hcur, hcc, hsr, hmr, hct⟩

/-- Claim C5 (corrected, amended form): while a key is locked, a tick
detecting its relative key with confidence below the 0.70 override bar
and at least the effective threshold reports the locked key unchanged;
and any sequence of such ticks (for instance the relative key at
confidence 0.5 under the default configuration) never changes the locked
key. -/
theorem relative_key_suppression (st : KeyDetector) (cur : MKey)
    (hcur : st.current_key = some cur) :
    (∀ audio ev, TickRuns st audio ev → is_related_key ev.key cur →
      ev.confidence < 7 / 10 →
      effectiveThreshold st.confidence_threshold audio ≤ ev.confidence →
      (detect_key st audio ev).2 = (some cur, st.current_confidence) ∧
      (detect_key st audio ev).1.current_key = some cur) ∧
    (∀ ticks : List (List ℚ × TickEval),
      (∀ t ∈ ticks,
        TickRuns st t.1 t.2 ∧ is_related_key t.2.key cur ∧
        t.2.confidence < 7 / 10 ∧
        effectiveThreshold st.confidence_threshold t.1 ≤ t.2.confidence) →
      (ticks.foldl (fun s t => (detect_key s t.1 t.2).1) st).current_key = some cur) := by
  constructor
  · intro audio ev h1 h2 h3 h4
    have h := blocked_tick st audio ev cur h1 hcur h2 h3 h4
    exact ⟨h.1, h.2.1⟩
  · intro ticks
    suffices hgen : ∀ ticks : List (List ℚ × TickEval), ∀ s : KeyDetector,
        s.current_key = some cur → s.sample_rate = st.sample_rate →
        s.min_rms_threshold = st.min_rms_threshold →
        s.confidence_threshold = st.confidence_threshold →
        (∀ t ∈ ticks,
          TickRuns st t.1 t.2 ∧ is_related_key t.2.key cur ∧
          t.2.confidence < 7 / 10 ∧
          effectiveThreshold st.confidence_threshold t.1 ≤ t.2.confidence) →
        (ticks.foldl (fun s t => (detect_key s t.1 t.2).1) s).current_key = some cur by
      exact fun h => hgen ticks st hcur rfl rfl rfl h
    intro ticks
    induction ticks with
    | nil => intro s hs _ _ _ _; exact hs
    | cons t rest ih =>
      intro s hs hsr hmr hct hall
      obtain ⟨⟨g1, g2, g3, g4, g5⟩, h2, h3, h4⟩ := hall t (List.mem_cons_self t rest)
      have hrun : TickRuns s t.1 t.2 := by
        refine ⟨?_, ?_, ?_, g4, g5⟩
        · rw [hsr]; exact g1
        · rw [hsr, hmr]; exact g2
        · rw [hmr]; exact g3
      have hthr : effectiveThreshold s.confidence_threshold t.1 ≤ t.2.confidence := by
        rw [hct]; exact h4
      have h := blocked_tick s t.1 t.2 cur hrun hs h2 h3 hthr
      have hrest : ∀ u ∈ rest,
          TickRuns st u.1 u.2 ∧ is_related_key u.2.key cur ∧
          u.2.confidence < 7 / 10 ∧
          effectiveThreshold st.confidence_threshold u.1 ≤ u.2.confidence :=
        fun u hu => hall u (List.mem_cons_of_mem t hu)
      simpa using ih ((detect_key s t.1 t.2).1) h.2.1
        (h.2.2.2.1.trans hsr) (h.2.2.2.2.1.trans hmr) (h.2.2.2.2.2.trans hct) hrest

set_option maxHeartbeats 1600000 in
/-- Counterexample to claim C5 as stated: with the lock on A minor
weakened to strength 1/4, a tick detecting the relative key C major at
confidence 0.01 (below the override bar 0.70, but also below the
effective threshold, with lock strength under the 0.3 residual bar)
reports NO key instead of the locked key. -/
theorem relative_key_weak_lock_cex :
    weakAm.current_key = some ⟨9, Mode.minor⟩ ∧
    is_related_key evCmajLow.key ⟨9, Mode.minor⟩ ∧
    evCmajLow.confidence < 7 / 10 ∧
    (detect_key weakAm loudAudio evCmajLow).2 = (none, 1 / 100) := by
  refine ⟨rfl, ?_, ?_, ?_⟩ <;>
    norm_num +decide [detect_key, is_related_key, relativeKey, weakAm, smallDet, initDetector,
      evCmajLow, evLow, loudAudio, minSamples, chunkLen, pyInt, meanSq, pyTail, sqrtLt,
      effectiveThreshold, update_adaptive_thresholds, afterBuffers, dequeAppend,
      Int.toNat]

/-- Witness for relative_key_suppression: locked on A minor, five
consecutive relative-key C-major ticks at confidence 0.5 leave the
reported and locked key at A minor. -/
theorem relative_key_suppression_witness :
    TickRuns lockedAm loudAudio evCmaj05 ∧
    (detect_key lockedAm loudAudio evCmaj05).2 =
      (some ⟨9, Mode.minor⟩, lockedAm.current_confidence) ∧
    (List.foldl (fun s t => (detect_key s t.1 t.2).1) lockedAm
      (List.replicate 5 (loudAudio, evCmaj05))).current_key = some ⟨9, Mode.minor⟩ := by
  have h1 : TickRuns lockedAm loudAudio evCmaj05 := by
    refine ⟨?_, ?_, ?_, ?_, ?_⟩ <;>
      norm_num [minSamples, chunkLen, pyInt, pyTail, meanSq, sqrtLt, lockedAm, smallDet,
        initDetector, loudAudio, evCmaj05, evLow, Int.toNat]
  have h2 : is_related_key evCmaj05.key (⟨9, Mode.minor⟩ : MKey) := by
    norm_num [is_related_key, relativeKey, evCmaj05, evLow]
  have h3 : evCmaj05.confidence < 7 / 10 := by norm_num [evCmaj05, evLow]
  have h4 : effectiveThreshold lockedAm.confidence_threshold loudAudio ≤
      evCmaj05.confidence := by
    norm_num [effectiveThreshold, meanSq, sqrtLt, lockedAm, smallDet, initDetector,
      loudAudio, evCmaj05, evLow]
  have h := relative_key_suppression lockedAm ⟨9, Mode.minor⟩ rfl
  refine ⟨h1, ((h.1 loudAudio evCmaj05 h1 h2 h3 h4).1), ?_⟩
  refine h.2 (List.replicate 5 (loudAudio, evCmaj05)) ?_
  intro t ht
  rw [List.eq_of_mem_replicate ht]
  exact ⟨h1, h2, h3, h4⟩

/-- Claim C10 (confirmed): the strict ordering
adaptive_lock_frames < adaptive_unlock_frames is an invariant: it is
preserved by every call to update_adaptive_thresholds (for arbitrary RMS
and confidence inputs), it is restored by reset (given the base frame
ordering set in the constructor), and it holds in every freshly
constructed detector. -/
theorem adaptive_thresholds_ordered (st : KeyDetector) (rms conf : ℚ)
    (hadapt : st.adaptive_lock_frames < st.adaptive_unlock_frames)
    (hframes : st.frames_to_lock < st.frames_to_unlock) :
    (update_adaptive_thresholds st rms conf).adaptive_lock_frames <
      (update_adaptive_thresholds st rms conf).adaptive_unlock_frames ∧
    (reset st).adaptive_lock_frames < (reset st).adaptive_unlock_frames ∧
    (∀ sr sh lh smo ct mrt hp,
      (initDetector sr sh lh smo ct mrt hp).adaptive_lock_frames <
        (initDetector sr sh lh smo ct mrt hp).adaptive_unlock_frames) := by
  refine ⟨?_, hframes, fun sr sh lh smo ct mrt hp => by norm_num [initDetector]⟩
  unfold update_adaptive_thresholds
  dsimp only
  split_ifs <;>
    first
      | exact hadapt
      | norm_num [pyInt, Int.toNat]

/-- Witness for adaptive_thresholds_ordered: the freshly constructed
smallDet with a zero-RMS zero-confidence update. -/
theorem adaptive_thresholds_ordered_witness :
    smallDet.adaptive_lock_frames < smallDet.adaptive_unlock_frames ∧
    smallDet.frames_to_lock < smallDet.frames_to_unlock ∧
    (update_adaptive_thresholds smallDet 0 0).adaptive_lock_frames <
      (update_adaptive_thresholds smallDet 0 0).adaptive_unlock_frames ∧
    (reset smallDet).adaptive_lock_frames < (reset smallDet).adaptive_unlock_frames := by
  have h1 : smallDet.adaptive_lock_frames < smallDet.adaptive_unlock_frames := by
    norm_num [smallDet, initDetector]
  have h2 : smallDet.frames_to_lock < smallDet.frames_to_unlock := by
    norm_num [smallDet, initDetector]
  have h := adaptive_thresholds_ordered smallDet 0 0 h1 h2
  exact ⟨h1, h2, h.1, h.2.1⟩

/-! Lemmas for the correlation-stage confidence bound. -/

theorem dotL_nonneg (u v : List ℚ) (hu : ∀ x ∈ u, 0 ≤ x) (hv : ∀ x ∈ v, 0 ≤ x) :
    0 ≤ dotL u v := by
  unfold dotL
  apply List.sum_nonneg
  intro x hx
  obtain ⟨⟨a, b⟩, hp, rfl⟩ := List.mem_map.mp hx
  exact mul_nonneg (hu a (List.of_mem_zip hp).1) (hv b (List.of_mem_zip hp).2)

theorem normProf_nonneg (v : List ℚ) (c : ℚ) (hv : ∀ x ∈ v, 0 ≤ x) (hc : 0 < c) :
    ∀ x ∈ normProf v c, 0 ≤ x := by
  intro x hx
  obtain ⟨y, hy, rfl⟩ := List.mem_map.mp hx
  exact div_nonneg (hv y hy) hc.le

theorem rotate_nonneg (l : List ℚ) (n : ℕ) (h : ∀ x ∈ l, 0 ≤ x) :
    ∀ x ∈ l.rotate n, 0 ≤ x := by
  intro x hx
  exact h x ((List.mem_rotate).mp hx)

theorem profStep_corr_ge (hpcp major minor : List ℚ) (acc : Fin 12 × Mode × ℚ)
    (s : Fin 12) : acc.2.2 ≤ (profStep hpcp major minor acc s).2.2 := by
  unfold profStep
  dsimp only
  split_ifs <;> linarith

theorem profStep_ge_major (hpcp major minor : List ℚ) (acc : Fin 12 × Mode × ℚ)
    (s : Fin 12) :
    dotL (hpcp.rotate s.val) major ≤ (profStep hpcp major minor acc s).2.2 := by
  unfold profStep
  dsimp only
  split_ifs <;> linarith

theorem foldl_profStep_ge (hpcp major minor : List ℚ) (l : List (Fin 12))
    (acc : Fin 12 × Mode × ℚ) :
    acc.2.2 ≤ (l.foldl (profStep hpcp major minor) acc).2.2 := by
  induction l generalizing acc with
  | nil => exact le_refl _
  | cons s t ih =>
    exact le_trans (profStep_corr_ge hpcp major minor acc s) (ih _)

theorem detect_key_with_profile_nonneg (hpcp major minor : List ℚ)
    (hh : ∀ x ∈ hpcp, 0 ≤ x) (hM : ∀ x ∈ major, 0 ≤ x) :
    0 ≤ (detect_key_with_profile hpcp major minor).2.2 := by
  unfold detect_key_with_profile
  rcases e : List.finRange 12 with - | ⟨s, t⟩
  · have := congrArg List.length e
    simp at this
  · rw [List.foldl_cons]
    refine le_trans ?_ (foldl_profStep_ge hpcp major minor t _)
    refine le_trans ?_ (profStep_ge_major hpcp major minor _ s)
    exact dotL_nonneg _ _ (rotate_nonneg hpcp s.val hh) hM

theorem addVote_nonneg (rs : List (MKey × ℚ)) (k : MKey) (w : ℚ)
    (h : ∀ p ∈ rs, 0 ≤ p.2) (hw : 0 ≤ w) :
    ∀ p ∈ addVote rs k w, 0 ≤ p.2 := by
  unfold addVote
  split_ifs with hc
  · intro p hp
    obtain ⟨q, hq, rfl⟩ := List.mem_map.mp hp
    by_cases he : q.1 = k
    · rw [if_pos he]
      exact add_nonneg (h q hq) hw
    · rw [if_neg he]
      exact h q hq
  · intro p hp
    rcases List.mem_append.mp hp with h1 | h1
    · exact h p h1
    · rw [List.mem_singleton.mp h1]
      exact hw

theorem addVote_ne_nil (rs : List (MKey × ℚ)) (k : MKey) (w : ℚ) :
    addVote rs k w ≠ [] := by
  unfold addVote
  split_ifs with hc
  · intro h
    rw [List.map_eq_nil_iff] at h
    rw [h] at hc
    simp at hc
  · simp

theorem insertDesc_perm (x : MKey × ℚ) (l : List (MKey × ℚ)) :
    List.Perm (insertDesc x l) (x :: l) := by
  induction l with
  | nil => exact List.Perm.refl _
  | cons y ys ih =>
    unfold insertDesc
    split_ifs with h
    · exact (ih.cons y).trans (List.Perm.swap x y ys)
    · exact List.Perm.refl _

theorem sortDesc_perm (l : List (MKey × ℚ)) : List.Perm (sortDesc l) l := by
  induction l with
  | nil => exact List.Perm.refl _
  | cons a l ih =>
    simp only [sortDesc, List.foldr_cons]
    exact (insertDesc_perm a _).trans (ih.cons a)

theorem sorted_insertDesc (x : MKey × ℚ) (l : List (MKey × ℚ))
    (h : List.Sorted (fun a b : MKey × ℚ => b.2 ≤ a.2) l) :
    List.Sorted (fun a b : MKey × ℚ => b.2 ≤ a.2) (insertDesc x l) := by
  induction l with
  | nil => simp [insertDesc]
  | cons y ys ih =>
    rw [List.sorted_cons] at h
    unfold insertDesc
    split_ifs with hgt
    · rw [List.sorted_cons]
      constructor
      · intro b hb
        rcases List.mem_cons.mp ((insertDesc_perm x ys).mem_iff.mp hb) with rfl | hbys
        · exact le_of_lt hgt
        · exact h.1 b hbys
      · exact ih h.2
    · rw [List.sorted_cons]
      refine ⟨?_, List.sorted_cons.mpr h⟩
      intro b hb
      rcases List.mem_cons.mp hb with rfl | hbys
      · exact not_lt.mp hgt
      · exact le_trans (h.1 b hbys) (not_lt.mp hgt)

theorem sorted_sortDesc (l : List (MKey × ℚ)) :
    List.Sorted (fun a b : MKey × ℚ => b.2 ≤ a.2) (sortDesc l) := by
  induction l with
  | nil => simp [sortDesc]
  | cons a l ih =>
    simp only [sortDesc, List.foldr_cons]
    exact sorted_insertDesc a _ ih

theorem topConfidence_bounds (rs : List (MKey × ℚ)) (hne : rs ≠ [])
    (hnn : ∀ p ∈ rs, 0 ≤ p.2) :
    0 ≤ (topConfidence rs).2.2 ∧ (topConfidence rs).2.2 ≤ 1 := by
  unfold topConfidence
  rcases e : sortDesc rs with - | ⟨best, rest⟩
  · exfalso
    have hperm := sortDesc_perm rs
    rw [e] at hperm
    exact hne (List.Perm.nil_eq hperm).symm
  · have hbest : 0 ≤ best.2 := by
      refine hnn best ((sortDesc_perm rs).subset ?_)
      rw [e]
      exact List.mem_cons_self best rest
    have hsorted := sorted_sortDesc rs
    rw [e, List.sorted_cons] at hsorted
    rcases rest with - | ⟨s, t⟩
    · dsimp only
      constructor
      · refine le_min (by norm_num) ?_
        refine mul_nonneg (div_nonneg hbest (by norm_num)) ?_
        nlinarith
      · exact min_le_left 1 _
    · have hs : s.2 ≤ best.2 := hsorted.1 s (List.mem_cons_self s t)
      dsimp only
      constructor
      · refine le_min (by norm_num) ?_
        refine mul_nonneg (div_nonneg hbest (by norm_num)) ?_
        nlinarith
      · exact min_le_left 1 _

/-- Claim C7 (confirmed): for every 12-bin chroma vector with
non-negative entries and unit L2 norm, and every positive choice of the
six profile norms (covering the true np.linalg.norm values), the
confidence produced by the multi-profile correlation lies in [0, 1]. -/
theorem correlator_confidence_bounds (ns : Norms) (hpcp : List ℚ)
    (hns : ns.Pos) (_hlen : hpcp.length = 12)
    (hnn : ∀ x ∈ hpcp, 0 ≤ x)
    (_hunit : (hpcp.map fun x => x * x).sum = 1) :
    0 ≤ (correlate_with_profiles ns hpcp).2.2 ∧
    (correlate_with_profiles ns hpcp).2.2 ≤ 1 := by
  obtain ⟨h1, h2, h3, h4, h5, h6⟩ := hns
  have hw1 : 0 ≤ (45 / 100 : ℚ) *
      (detect_key_with_profile hpcp (normProf EDMA_MAJOR ns.edma_major_n)
        (normProf EDMA_MINOR ns.edma_minor_n)).2.2 :=
    mul_nonneg (by norm_num)
      (detect_key_with_profile_nonneg _ _ _ hnn
        (normProf_nonneg _ _ (fun x hx => by fin_cases hx <;> norm_num [EDMA_MAJOR]) h1))
  have hw2 : 0 ≤ (35 / 100 : ℚ) *
      (detect_key_with_profile hpcp (normProf SHAATH_MAJOR ns.shaath_major_n)
        (normProf SHAATH_MINOR ns.shaath_minor_n)).2.2 :=
    mul_nonneg (by norm_num)
      (detect_key_with_profile_nonneg _ _ _ hnn
        (normProf_nonneg _ _ (fun x hx => by fin_cases hx <;> norm_num [SHAATH_MAJOR]) h3))
  have hw3 : 0 ≤ (20 / 100 : ℚ) *
      (detect_key_with_profile hpcp (normProf TEMPERLEY_MAJOR ns.temperley_major_n)
        (normProf TEMPERLEY_MINOR ns.temperley_minor_n)).2.2 :=
    mul_nonneg (by norm_num)
      (detect_key_with_profile_nonneg _ _ _ hnn
        (normProf_nonneg _ _ (fun x hx => by fin_cases hx <;> norm_num [TEMPERLEY_MAJOR]) h5))
  unfold correlate_with_profiles
  dsimp only
  refine topConfidence_bounds _ (addVote_ne_nil _ _ _) ?_
  refine addVote_nonneg _ _ _ ?_ hw3
  refine addVote_nonneg _ _ _ ?_ hw2
  refine addVote_nonneg _ _ _ ?_ hw1
  intro p hp
  simp at hp

/-- Witness for correlator_confidence_bounds: the unit chroma vector
concentrated on C with all profile norms set to 1. -/
theorem correlator_confidence_bounds_witness :
    onesNorms.Pos ∧ unitChroma.length = 12 ∧ (∀ x ∈ unitChroma, 0 ≤ x) ∧
    (unitChroma.map fun x => x * x).sum = 1 ∧
    (0 ≤ (correlate_with_profiles onesNorms unitChroma).2.2 ∧
      (correlate_with_profiles onesNorms unitChroma).2.2 ≤ 1) := by
  have hp : onesNorms.Pos := by
    refine ⟨?_, ?_, ?_, ?_, ?_, ?_⟩ <;> norm_num [onesNorms]
  have hl : unitChroma.length = 12 := by norm_num [unitChroma]
  have hn : ∀ x ∈ unitChroma, 0 ≤ x := by
    intro x hx
    fin_cases hx <;> norm_num
  have hu : (unitChroma.map fun x => x * x).sum = 1 := by norm_num [unitChroma]
  exact ⟨hp, hl, hn, hu, correlator_confidence_bounds onesNorms unitChroma hp hl hn hu⟩

end KeyDetector

end AutoKey

